import Mathlib

/-!
Shallow embedding of the SeriesRenamer core (src/app.rs) for verification.

Conventions of the embedding:
* Rust `String`/`&str` become Lean `String`; character classes (`is_alphanumeric`,
  `is_whitespace`, `is_ascii_digit`) are modelled on the ASCII fragment via Lean's
  `Char` predicates.
* `PathBuf` is modelled as the list of its path components (`List String`);
  `Path::parent`, `Path::file_name`, `Path::extension` and `Path::display` are
  reproduced on that model.
* `HashMap` is modelled as an association list with insert-replaces-key
  semantics (`hmInsert` / `hmLookup`); iteration order of the model is list order
  (the real `HashMap` iteration order is unspecified, which no claim depends on).
* Effectful calls (`std::fs::rename`, the HTTP transport, `sender.send`) are
  modelled as explicit oracle parameters; the worker thread body is modelled as
  the sequential function it computes, and the messages it sends are collected
  in a list.
* `serde_json` decoding of the two `Deserialize` structs is reproduced on an
  explicit `Json` type; error message texts of the decoder are abbreviated
  (serde's exact wording carries line/column info), which no claim depends on.
-/

/-- ASCII single-quote character, used inside the executor's report strings
(`format!` literals of app.rs use `'...'` around paths and names). -/
def squote : String := String.mk [Char.ofNat 39]

/-- Rust `str::starts_with` on string literals: prefix test on the char list. -/
def strStartsWith (s pre : String) : Bool := pre.toList.isPrefixOf s.toList

/-- Rust `str::split(c)` on the character list: splits at every occurrence of
`c`, keeping empty segments (exactly the semantics of `"a//b".split('/')`). -/
def splitCharList (c : Char) : List Char → List (List Char)
  | [] => [[]]
  | x :: xs =>
    match splitCharList c xs with
    | [] => [[]]
    | t :: ts => if x = c then [] :: t :: ts else (x :: t) :: ts

/-- Rust `str::split(c)` producing strings. -/
def rustSplit (c : Char) (s : String) : List String :=
  (splitCharList c s.toList).map (fun l => String.mk l)

/-- Rust `Vec::join(sep)` / the `rename_results.join("\n")` call of app.rs. -/
def joinWith (sep : String) : List String → String
  | [] => ""
  | x :: xs => xs.foldl (fun acc s => acc ++ sep ++ s) x

/-- Rust `Path::display` on the component-list path model. -/
def pathDisplay (p : List String) : String :=
  match p with
  | [] => ""
  | x :: xs => xs.foldl (fun acc s => acc ++ "/" ++ s) x

/-- Rust `Path::parent` on the component-list path model: `None` only for the
empty path, otherwise the path without its last component. -/
def pathParent (p : List String) : Option (List String) :=
  match p with
  | [] => none
  | _ :: _ => some p.dropLast

/-- Helper for `Path::extension`: the characters after the last `.` of the
given character list, or `none` when it contains no `.`. -/
def extHelper : List Char → Option (List Char)
  | [] => none
  | c :: rest =>
    match extHelper rest with
    | some e => some e
    | none => if c = '.' then some rest else none

/-- Rust `Path::extension` on a file name: the part after the last `.`, where a
leading `.` (hidden files) does not count and `..` has no extension. -/
def extOfName (name : String) : Option String :=
  if name = ".." then none
  else
    match name.toList with
    | [] => none
    | _ :: rest => (extHelper rest).map (fun cs => String.mk cs)

/-- Rust `Path::extension().and_then(|s| s.to_str())` on the component-list
path model (`file_name` is the last component). -/
def rustExtension (p : List String) : Option String :=
  match p.getLast? with
  | none => none
  | some name => extOfName name

/-- Rust `str::parse::<u32>()`: optional leading `+`, then one or more ASCII
digits, value below `2 ^ 32`; everything else fails. -/
def parseU32 (s : String) : Option Nat :=
  let cs := s.toList
  let digits := match cs with
    | '+' :: rest => rest
    | l => l
  if digits = [] then none
  else if digits.all (fun c => c.isDigit) then
    let n := digits.foldl (fun acc c => acc * 10 + (c.toNat - 48)) 0
    if n < 2 ^ 32 then some n else none
  else none

/-- Rust `format!` specifier `{:02}`: decimal, zero-padded to width at least 2. -/
def pad2 (n : Nat) : String :=
  if n < 10 then "0" ++ toString n else toString n

/-- `SeriesRenamer::sanitize_title` (app.rs:349-351): keep only alphanumeric
and whitespace characters of the title. -/
def sanitizeTitle (title : String) : String :=
  String.mk (title.toList.filter (fun c => c.isAlphanum || c.isWhitespace))

/-- `Episode` (app.rs:23-31): OMDB metadata record for one episode. -/
structure Episode where
  title : String
  episode : String
  imdb_id : String
deriving DecidableEq, Repr

/-- `LocalFile` (app.rs:17-20): a file found in the scanned directory,
identified by its path. -/
structure LocalFile where
  path : List String
deriving DecidableEq, Repr

/-- `AppMessage` (app.rs:10-14): the message sent from the worker thread to the
interactive loop over the crossbeam channel. -/
inductive AppMessage where
  | dataFetched (episodes : List Episode) (files : List LocalFile)
  | fetchError (msg : String)

/-- JSON values, for the `serde_json::from_slice` decoding model. -/
inductive Json where
  | null
  | bool (b : Bool)
  | num (n : Int)
  | str (s : String)
  | arr (elems : List Json)
  | obj (fields : List (String × Json))

/-- `ehttp::Response` as observed by the fetch callback: `ok` is the 2xx flag,
`body` is the parse of `response.bytes` (`none` when the bytes are not JSON). -/
structure HttpResponse where
  ok : Bool
  status : Nat
  statusText : String
  body : Option Json

/-- Association-list model of `std::collections::HashMap`: insert replaces any
existing binding of the key. -/
def hmInsert {κ ν : Type} [DecidableEq κ] (k : κ) (v : ν) (m : List (κ × ν)) :
    List (κ × ν) :=
  (k, v) :: m.filter (fun p => decide (p.1 ≠ k))

/-- Association-list model of `HashMap::get`. -/
def hmLookup {κ ν : Type} [DecidableEq κ] (k : κ) (m : List (κ × ν)) : Option ν :=
  (m.find? (fun p => decide (p.1 = k))).map (fun p => p.2)

/-- serde decoding of one `Episode` (app.rs:23-31): the value must be an object
carrying string fields `Title`, `Episode` and `imdbID` (the serde renames of
`title`, `episode`, `imdb_id`); unknown fields are ignored. -/
def decodeEpisode (j : Json) : Except String Episode :=
  match j with
  | Json.obj fields =>
    match hmLookup "Title" fields with
    | some (Json.str t) =>
      match hmLookup "Episode" fields with
      | some (Json.str ep) =>
        match hmLookup "imdbID" fields with
        | some (Json.str id) => Except.ok ⟨t, ep, id⟩
        | some _ => Except.error "invalid type for field imdbID"
        | none => Except.error "missing field imdbID"
      | some _ => Except.error "invalid type for field Episode"
      | none => Except.error "missing field Episode"
    | some _ => Except.error "invalid type for field Title"
    | none => Except.error "missing field Title"
  | _ => Except.error "invalid type: expected object for Episode"

/-- serde decoding of the `Episodes` array value. -/
def decodeEpisodes (j : Json) : Except String (List Episode) :=
  match j with
  | Json.arr elems => elems.mapM decodeEpisode
  | _ => Except.error "invalid type: expected array for Episodes"

/-- serde decoding of `SeasonResponse` (app.rs:33-38): the body must be an
object; the `Episodes` field carries `#[serde(default)]`, so an absent key
decodes to the empty list; unknown fields are ignored. -/
def decodeSeasonResponse (j : Json) : Except String (List Episode) :=
  match j with
  | Json.obj fields =>
    match hmLookup "Episodes" fields with
    | none => Except.ok []
    | some v => decodeEpisodes v
  | _ => Except.error "invalid type: expected object for SeasonResponse"

/-- `serde_json::from_slice::<SeasonResponse>` on the response bytes: bytes
that are not JSON at all fail outright, otherwise decode the value. -/
def decodeBody (b : Option Json) : Except String (List Episode) :=
  match b with
  | none => Except.error "expected value"
  | some j => decodeSeasonResponse j

/-- `imdb_link.split('/').find(|s| s.starts_with("tt"))` (app.rs:197): the
first slash-delimited token of the link starting with the `tt` prefix. -/
def resolveImdbId (link : String) : Option String :=
  (rustSplit '/' link).find? (fun s => strStartsWith s "tt")

/-- The worker closure spawned per fetch attempt (app.rs:188-237), with the
already-scanned file list as input.  `deliver` models `sender.send`, whose
`Result` the source discards (`let _ = sender.send(..)`); `net` models the
outcome of the HTTP transport handed to the `ehttp::fetch` callback.  Returns
the messages sent on the channel, in order, paired with whether the network
request was issued (`ehttp::fetch` reached). -/
def workerRun (deliver : AppMessage → Bool) (link : String)
    (files : List LocalFile) (net : Except String HttpResponse) :
    List AppMessage × Bool :=
  match resolveImdbId link with
  | none =>
    let msg := AppMessage.fetchError "Could not find IMDb ID in link."
    let _ := deliver msg
    ([msg], false)
  | some _ =>
    match net with
    | Except.ok response =>
      if response.ok then
        match decodeBody response.body with
        | Except.ok season =>
          let msg := AppMessage.dataFetched season files
          let _ := deliver msg
          ([msg], true)
        | Except.error e =>
          let msg := AppMessage.fetchError ("JSON Parse Error: " ++ e)
          let _ := deliver msg
          ([msg], true)
      else
        let msg := AppMessage.fetchError
          ("API Error: " ++ toString response.status ++ " " ++ response.statusText)
        let _ := deliver msg
        ([msg], true)
    | Except.error e =>
      let msg := AppMessage.fetchError ("Network Error: " ++ e)
      let _ := deliver msg
      ([msg], true)

mutual

/-- One node of the scanned directory tree: a regular file, a directory with
children, or an entry whose traversal errors (permission denied and the like,
the `Err` case of the `walkdir` iterator). -/
inductive DirEntry where
  | file (name : String)
  | dir (name : String) (children : DirForest)
  | errorNode (msg : String)

/-- A list of sibling directory entries (mutual with `DirEntry`). -/
inductive DirForest where
  | nil
  | cons (head : DirEntry) (tail : DirForest)

end

mutual

/-- The `WalkDir::new(..)` iterator over one entry: yields the entry itself
(`Ok` with its path and an is-file flag, or `Err`), then its children. -/
def walkEntry (pre : List String) : DirEntry → List (Except String (List String × Bool))
  | DirEntry.file n => [Except.ok (pre ++ [n], true)]
  | DirEntry.dir n cs => Except.ok (pre ++ [n], false) :: walkForest (pre ++ [n]) cs
  | DirEntry.errorNode m => [Except.error m]

/-- The `WalkDir` iterator over a list of siblings. -/
def walkForest (pre : List String) : DirForest → List (Except String (List String × Bool))
  | DirForest.nil => []
  | DirForest.cons e es => walkEntry pre e ++ walkForest pre es

end

/-- Rust `Result::ok`, as used by `filter_map(Result::ok)`. -/
def rustResultOk {ε α : Type} : Except ε α → Option α
  | Except.ok a => some a
  | Except.error _ => none

/-- The scanner pipeline of app.rs:189-196 applied to a walk item list:
`filter_map(Result::ok)`, then `filter(|e| e.file_type().is_file())`, then
`map(|e| LocalFile { path: e.into_path() })`. -/
def pipelineFiles (l : List (Except String (List String × Bool))) : List LocalFile :=
  ((l.filterMap rustResultOk).filter (fun e => e.2)).map (fun e => LocalFile.mk e.1)

/-- The directory scan of the worker closure (app.rs:189-196). -/
def scanFiles (root : DirEntry) : List LocalFile :=
  pipelineFiles (walkEntry [] root)

mutual

/-- The regular files below one entry, in traversal order (reference
formulation: directories and error entries contribute nothing). -/
def regularFilesEntry (pre : List String) : DirEntry → List LocalFile
  | DirEntry.file n => [LocalFile.mk (pre ++ [n])]
  | DirEntry.dir n cs => regularFilesForest (pre ++ [n]) cs
  | DirEntry.errorNode _ => []

/-- The regular files below a list of siblings. -/
def regularFilesForest (pre : List String) : DirForest → List LocalFile
  | DirForest.nil => []
  | DirForest.cons e es => regularFilesEntry pre e ++ regularFilesForest pre es

end

mutual

/-- The number N of regular-file nodes in one entry. -/
def countFilesEntry : DirEntry → Nat
  | DirEntry.file _ => 1
  | DirEntry.dir _ cs => countFilesForest cs
  | DirEntry.errorNode _ => 0

/-- The number of regular-file nodes in a forest. -/
def countFilesForest : DirForest → Nat
  | DirForest.nil => 0
  | DirForest.cons e es => countFilesEntry e + countFilesForest es

end

/-- The serde-skipped runtime state of `SeriesRenamer` (app.rs:48-80), with
effectful handles (`receiver`, dialogs' deferred action) left out and maps as
association lists. -/
structure AppState where
  imdb_link : String
  series_directory : String
  season_number : Nat
  show_process_window : Bool
  api_key : String
  episodes : List Episode
  files : List LocalFile
  fetch_status : String
  is_fetching : Bool
  rename_plan : List (Episode × LocalFile)
  file_episode_inputs : List (List String × String)
  show_confirmation_dialog : Bool

/-- The message poll of `SeriesRenamer::update` (app.rs:127-150): the effect of
one received `AppMessage` on the state. -/
def handleMessage (s : AppState) (m : AppMessage) : AppState :=
  match m with
  | AppMessage.dataFetched episodes files =>
    { s with
      episodes := episodes
      files := files
      rename_plan := []
      file_episode_inputs := []
      is_fetching := false
      fetch_status :=
        "Fetched " ++ toString episodes.length ++ " episodes and " ++
          toString files.length ++ " files." }
  | AppMessage.fetchError errMsg =>
    { s with is_fetching := false, fetch_status := errMsg }

/-- The episode lookup map of `build_rename_plan` (app.rs:437-441): collects
`(e.episode, e)` into a `HashMap`, later insertions replacing earlier ones. -/
def episodeMap (episodes : List Episode) : List (String × Episode) :=
  episodes.foldl (fun m e => hmInsert e.episode e m) []

/-- One iteration of the `build_rename_plan` loop body (app.rs:443-454). -/
def buildStep (episodes : List Episode) (inputs : List (List String × String))
    (plan : List (Episode × LocalFile)) (file : LocalFile) :
    List (Episode × LocalFile) :=
  match hmLookup file.path inputs with
  | some episodeNumStr =>
    if episodeNumStr = "" then plan
    else
      match hmLookup episodeNumStr (episodeMap episodes) with
      | some episode => hmInsert episode file plan
      | none => plan
  | none => plan

/-- `SeriesRenamer::build_rename_plan` (app.rs:433-455): clears the plan, then
walks the files and inserts the episode matched by each file's text input. -/
def buildRenamePlan (episodes : List Episode) (files : List LocalFile)
    (inputs : List (List String × String)) : List (Episode × LocalFile) :=
  files.foldl (buildStep episodes inputs) []

/-- The episode a given file resolves to through its input buffer (the
composite of the guards of the `build_rename_plan` loop body). -/
def inputEpisode (episodes : List Episode) (inputs : List (List String × String))
    (f : LocalFile) : Option Episode :=
  match hmLookup f.path inputs with
  | some s => if s = "" then none else hmLookup s (episodeMap episodes)
  | none => none

/-- The target name the rename executor computes for a plan entry when the
extension and episode number are both available (app.rs:283-286). -/
def plannedName (season : Nat) (e : Episode) (f : LocalFile) : Option String :=
  match rustExtension f.path with
  | some ext =>
    match parseU32 e.episode with
    | some n =>
      some ("S" ++ pad2 season ++ "E" ++ pad2 n ++ " - " ++
        sanitizeTitle e.title ++ "." ++ ext)
    | none => none
  | none => none

/-- The preview name of `show_confirmation_window` (app.rs:406-412): missing
extensions degrade to `""` and a non-numeric episode label falls back to the
raw label, unpadded. -/
def previewName (season : Nat) (episode : Episode) (file : LocalFile) : String :=
  let ext := (rustExtension file.path).getD ""
  let sanitized := sanitizeTitle episode.title
  match parseU32 episode.episode with
  | some n => "S" ++ pad2 season ++ "E" ++ pad2 n ++ " - " ++ sanitized ++ "." ++ ext
  | none =>
    "S" ++ pad2 season ++ "E" ++ episode.episode ++ " - " ++ sanitized ++ "." ++ ext

/-- One iteration of the executor loop of `DialogAction::Confirm`
(app.rs:277-325) over a filesystem oracle `rn` (the `std::fs::rename` call on
state `fs`): produces the pushed report string and the next filesystem state. -/
def confirmEntry {σ : Type} (season : Nat)
    (rn : σ → List String → List String → Except String σ) (fs : σ)
    (episode : Episode) (file : LocalFile) : String × σ :=
  let originalPath := file.path
  match rustExtension originalPath with
  | some ext =>
    match parseU32 episode.episode with
    | some episodeNumber =>
      let sanitized := sanitizeTitle episode.title
      let newName := "S" ++ pad2 season ++ "E" ++ pad2 episodeNumber ++ " - " ++
        sanitized ++ "." ++ ext
      match pathParent originalPath with
      | some parentDir =>
        let newPath := parentDir ++ [newName]
        match rn fs originalPath newPath with
        | Except.ok fs2 =>
          ("Successfully renamed " ++ squote ++ pathDisplay originalPath ++ squote ++
            " to " ++ squote ++ newName ++ squote, fs2)
        | Except.error e =>
          ("ERROR renaming " ++ pathDisplay originalPath ++ ": " ++ e, fs)
      | none =>
        ("ERROR: Could not get parent directory for " ++ pathDisplay originalPath, fs)
    | none =>
      ("ERROR: Could not parse episode number " ++ squote ++ episode.episode ++
        squote ++ " for " ++ pathDisplay originalPath, fs)
  | none =>
    ("ERROR: Could not get file extension for " ++ pathDisplay originalPath, fs)

/-- The executor loop of `DialogAction::Confirm` (app.rs:276-325): one report
string pushed per plan entry, threading the filesystem state. -/
def runConfirmLoop {σ : Type} (season : Nat)
    (rn : σ → List String → List String → Except String σ) :
    List (Episode × LocalFile) → List String → σ → List String × σ
  | [], acc, fs => (acc, fs)
  | (episode, file) :: rest, acc, fs =>
    let r := confirmEntry season rn fs episode file
    runConfirmLoop season rn rest (acc ++ [r.1]) r.2

/-- The rename executor over a confirmed plan, starting from an empty report
vector (app.rs:276: `let mut rename_results = Vec::new();`). -/
def runConfirm {σ : Type} (season : Nat)
    (rn : σ → List String → List String → Except String σ)
    (plan : List (Episode × LocalFile)) (fs : σ) : List String × σ :=
  runConfirmLoop season rn plan [] fs

/-- The whole `DialogAction::Confirm` branch (app.rs:275-334): run the
executor, join the report, close both windows and clear plan, episodes, files
and input buffers. -/
def applyConfirm {σ : Type} (rn : σ → List String → List String → Except String σ)
    (s : AppState) (fs0 : σ) : AppState × σ :=
  let r := runConfirm s.season_number rn s.rename_plan fs0
  ({ s with
      fetch_status := joinWith "\n" r.1
      show_confirmation_dialog := false
      show_process_window := false
      rename_plan := []
      episodes := []
      files := []
      file_episode_inputs := [] }, r.2)

/-- A concrete filesystem model for witnesses: the set of existing file paths;
`fsRename` moves `old` to `new` and fails when `old` does not exist (one of the
I/O failure modes `std::fs::rename` reports). -/
abbrev FsModel := List (List String)

/-- Concrete `std::fs::rename` behaviour on `FsModel` (witness oracle, not a
source translation: the real call is an OS primitive). -/
def fsRename (fs : FsModel) (old new : List String) : Except String FsModel :=
  if old ∈ fs then Except.ok (new :: fs.filter (fun p => decide (p ≠ old)))
  else Except.error "No such file or directory"

/-- Concrete directory tree used by the scanner witness: two regular files at
different depths, one erroring subtree. -/
def ex6Tree : DirEntry :=
  DirEntry.dir "root" (DirForest.cons (DirEntry.file "a.mkv")
    (DirForest.cons (DirEntry.dir "sub" (DirForest.cons (DirEntry.file "b.mkv") DirForest.nil))
      (DirForest.cons (DirEntry.errorNode "permission denied") DirForest.nil)))

/-! ## Helper lemmas -/

/-- `List.find?` returns the first element satisfying the predicate: every
earlier position fails it. -/
theorem find?_first {α : Type} (p : α → Bool) :
    ∀ (l : List α) (a : α), l.find? p = some a →
      p a = true ∧ ∃ i, l.get? i = some a ∧
        ∀ j, j < i → ∀ b, l.get? j = some b → p b = false := by
  intro l
  induction l with
  | nil => intro a h; cases h
  | cons x xs ih =>
    intro a h
    cases hp : p x with
    | true =>
      rw [List.find?_cons_of_pos xs hp] at h
      injection h with hax
      subst hax
      exact ⟨hp, 0, rfl, fun j hj b hb => absurd hj (Nat.not_lt_zero j)⟩
    | false =>
      rw [List.find?_cons_of_neg xs (by simp [hp])] at h
      obtain ⟨hpa, i, hi, hbef⟩ := ih a h
      refine ⟨hpa, i + 1, hi, ?_⟩
      intro j hj b hb
      cases j with
      | zero =>
        injection hb with hb1
        rw [← hb1]
        exact hp
      | succ k => exact hbef k (Nat.lt_of_succ_lt_succ hj) b hb

/-- A successful `hmLookup` exhibits a member pair of the association list. -/
theorem hmLookup_mem {κ ν : Type} [DecidableEq κ] {k : κ} {m : List (κ × ν)} {v : ν}
    (h : hmLookup k m = some v) : (k, v) ∈ m := by
  unfold hmLookup at h
  cases hf : m.find? (fun p => decide (p.1 = k)) with
  | none => rw [hf] at h; cases h
  | some q =>
    rw [hf] at h
    have hq := List.find?_some hf
    have hk : q.1 = k := by simpa using hq
    have hm : q ∈ m := List.mem_of_find?_eq_some hf
    have hv : q.2 = v := by
      simpa using h
    obtain ⟨qk, qv⟩ := q
    simp only at hk hv
    subst hk
    subst hv
    exact hm

/-- An invariant preserved by each step of a fold holds of the fold. -/
theorem foldl_preserve {α β : Type} (P : β → Prop) (step : β → α → β)
    (hstep : ∀ b a, P b → P (step b a)) :
    ∀ (l : List α) (b : β), P b → P (l.foldl step b) := by
  intro l
  induction l with
  | nil => intro b hb; exact hb
  | cons x xs ih => intro b hb; exact ih (step b x) (hstep b x hb)

/-- Every pair of the plan after one `build_rename_plan` loop iteration is the
episode the file resolves to through its input buffer. -/
theorem buildStep_inv {episodes : List Episode} {inputs : List (List String × String)}
    {plan : List (Episode × LocalFile)} (file : LocalFile)
    (h : ∀ e f, (e, f) ∈ plan → inputEpisode episodes inputs f = some e) :
    ∀ e f, (e, f) ∈ buildStep episodes inputs plan file →
      inputEpisode episodes inputs f = some e := by
  intro e f hmem
  unfold buildStep at hmem
  cases hin : hmLookup file.path inputs with
  | none => simp only [hin] at hmem; exact h e f hmem
  | some s =>
    simp only [hin] at hmem
    by_cases hs : s = ""
    · rw [if_pos hs] at hmem; exact h e f hmem
    · rw [if_neg hs] at hmem
      cases hep : hmLookup s (episodeMap episodes) with
      | none => simp only [hep] at hmem; exact h e f hmem
      | some e0 =>
        simp only [hep] at hmem
        unfold hmInsert at hmem
        rcases List.mem_cons.mp hmem with heq | hmem2
        · rw [Prod.mk.injEq] at heq
          obtain ⟨he, hf⟩ := heq
          subst he
          subst hf
          unfold inputEpisode
          simp only [hin, if_neg hs, hep]
        · exact h e f (List.mem_of_mem_filter hmem2)

/-- The executor loop accumulator only prepends to the final report list. -/
theorem runConfirmLoop_acc {σ : Type} (season : Nat)
    (rn : σ → List String → List String → Except String σ) :
    ∀ (plan : List (Episode × LocalFile)) (acc : List String) (fs : σ),
      runConfirmLoop season rn plan acc fs =
        (acc ++ (runConfirmLoop season rn plan [] fs).1,
         (runConfirmLoop season rn plan [] fs).2) := by
  intro plan
  induction plan with
  | nil => intro acc fs; simp [runConfirmLoop]
  | cons p rest ih =>
    intro acc fs
    obtain ⟨e, f⟩ := p
    simp only [runConfirmLoop]
    rw [ih (acc ++ [(confirmEntry season rn fs e f).1]) (confirmEntry season rn fs e f).2,
        ih ([] ++ [(confirmEntry season rn fs e f).1]) (confirmEntry season rn fs e f).2]
    simp

/-- One executor iteration: the head entry contributes exactly its own report
string, and execution continues on the rest with the threaded filesystem. -/
theorem runConfirm_cons {σ : Type} (season : Nat)
    (rn : σ → List String → List String → Except String σ) (e : Episode)
    (f : LocalFile) (rest : List (Episode × LocalFile)) (fs : σ) :
    runConfirm season rn ((e, f) :: rest) fs =
      ((confirmEntry season rn fs e f).1 ::
        (runConfirm season rn rest (confirmEntry season rn fs e f).2).1,
       (runConfirm season rn rest (confirmEntry season rn fs e f).2).2) := by
  unfold runConfirm
  simp only [runConfirmLoop]
  rw [runConfirmLoop_acc]
  simp

/-- The executor produces one report string per plan entry. -/
theorem runConfirm_length {σ : Type} (season : Nat)
    (rn : σ → List String → List String → Except String σ) :
    ∀ (plan : List (Episode × LocalFile)) (fs : σ),
      ((runConfirm season rn plan fs).1).length = plan.length := by
  intro plan
  induction plan with
  | nil => intro fs; rfl
  | cons p rest ih =>
    intro fs
    obtain ⟨e, f⟩ := p
    rw [runConfirm_cons]
    simp [ih]

/-- The scanner pipeline distributes over iterator concatenation. -/
theorem pipelineFiles_append (a b : List (Except String (List String × Bool))) :
    pipelineFiles (a ++ b) = pipelineFiles a ++ pipelineFiles b := by
  simp [pipelineFiles]

/-- A regular-file iterator item passes the whole pipeline. -/
theorem pipelineFiles_cons_file (p : List String)
    (l : List (Except String (List String × Bool))) :
    pipelineFiles (Except.ok (p, true) :: l) = LocalFile.mk p :: pipelineFiles l := by
  simp [pipelineFiles, rustResultOk]

/-- A directory iterator item is dropped by the `is_file` filter. -/
theorem pipelineFiles_cons_dir (p : List String)
    (l : List (Except String (List String × Bool))) :
    pipelineFiles (Except.ok (p, false) :: l) = pipelineFiles l := by
  simp [pipelineFiles, rustResultOk]

/-- An erroring iterator item is dropped by `filter_map(Result::ok)`. -/
theorem pipelineFiles_cons_err (m : String)
    (l : List (Except String (List String × Bool))) :
    pipelineFiles (Except.error m :: l) = pipelineFiles l := by
  simp [pipelineFiles, rustResultOk]

mutual

/-- The scanner pipeline over the walk of one entry yields exactly its regular
files, in traversal order. -/
theorem pipeline_walkEntry (pre : List String) (t : DirEntry) :
    pipelineFiles (walkEntry pre t) = regularFilesEntry pre t := by
  cases t with
  | file n => rfl
  | dir n cs =>
    simp only [walkEntry, regularFilesEntry]
    rw [pipelineFiles_cons_dir]
    exact pipeline_walkForest (pre ++ [n]) cs
  | errorNode m => rfl

/-- The scanner pipeline over the walk of a forest yields exactly its regular
files. -/
theorem pipeline_walkForest (pre : List String) (f : DirForest) :
    pipelineFiles (walkForest pre f) = regularFilesForest pre f := by
  cases f with
  | nil => rfl
  | cons e es =>
    simp only [walkForest, regularFilesForest]
    rw [pipelineFiles_append, pipeline_walkEntry pre e, pipeline_walkForest pre es]

end

mutual

/-- The regular-file list of one entry has the entry's regular-file count. -/
theorem regularFiles_length_entry (pre : List String) (t : DirEntry) :
    (regularFilesEntry pre t).length = countFilesEntry t := by
  cases t with
  | file n => rfl
  | dir n cs =>
    simp only [regularFilesEntry, countFilesEntry]
    exact regularFiles_length_forest (pre ++ [n]) cs
  | errorNode m => rfl

/-- The regular-file list of a forest has the forest's regular-file count. -/
theorem regularFiles_length_forest (pre : List String) (f : DirForest) :
    (regularFilesForest pre f).length = countFilesForest f := by
  cases f with
  | nil => rfl
  | cons e es =>
    simp only [regularFilesForest, countFilesForest, List.length_append]
    rw [regularFiles_length_entry pre e, regularFiles_length_forest pre es]

end

/-! ## Claim theorems -/

/-- Claim C1, counterexample: for the plan entry with episode label `"A"` (not
an unsigned integer) the rename executor records a failure string and leaves
the filesystem untouched — it does not build the fallback name
`S02EA - Special.mp4` and does not attempt a rename, contrary to the claim. -/
theorem C1_counterexample :
    runConfirm 2 fsRename [(⟨"Special", "A", "tt0898266"⟩, ⟨["d", "video.mp4"]⟩)]
        [["d", "video.mp4"]] =
      (["ERROR: Could not parse episode number " ++ squote ++ "A" ++ squote ++
          " for d/video.mp4"], [["d", "video.mp4"]]) ∧
    ["d", "S02EA - Special.mp4"] ∉
      (runConfirm 2 fsRename [(⟨"Special", "A", "tt0898266"⟩, ⟨["d", "video.mp4"]⟩)]
        [["d", "video.mp4"]]).2 := by
  constructor
  · rfl
  · decide

/-- Claim C1, amended: for every plan entry whose episode label does not parse
as a `u32` (and whose file has an extension), the rename executor records a
per-entry parse failure and performs no rename for that entry — the raw-label
fallback name is produced only by the confirmation preview window — while the
rest of the batch is processed unaffected, on the unchanged filesystem. -/
theorem C1_amended :
    ∀ (σ : Type) (rn : σ → List String → List String → Except String σ) (season : Nat)
      (e : Episode) (f : LocalFile) (rest : List (Episode × LocalFile)) (fs : σ)
      (ext : String),
      parseU32 e.episode = none →
      rustExtension f.path = some ext →
      confirmEntry season rn fs e f =
        ("ERROR: Could not parse episode number " ++ squote ++ e.episode ++ squote ++
          " for " ++ pathDisplay f.path, fs) ∧
      (runConfirm season rn ((e, f) :: rest) fs).1 =
        ("ERROR: Could not parse episode number " ++ squote ++ e.episode ++ squote ++
          " for " ++ pathDisplay f.path) :: (runConfirm season rn rest fs).1 ∧
      previewName season e f =
        "S" ++ pad2 season ++ "E" ++ e.episode ++ " - " ++ sanitizeTitle e.title ++
          "." ++ ext := by
  intro σ rn season e f rest fs ext hparse hext
  have hent : confirmEntry season rn fs e f =
      ("ERROR: Could not parse episode number " ++ squote ++ e.episode ++ squote ++
        " for " ++ pathDisplay f.path, fs) := by
    simp only [confirmEntry, hext, hparse]
  refine ⟨hent, ?_, ?_⟩
  · rw [runConfirm_cons, hent]
  · simp only [previewName, hparse, hext]
    rfl

/-- Witness for C1: the amended statement evaluated at the spec's own fallback
example (season 2, label `"A"`, title `"Special"`, extension `"mp4"`). -/
theorem C1_amended_witness :
    confirmEntry 2 fsRename [["d", "video.mp4"]] ⟨"Special", "A", "tt0898266"⟩
        ⟨["d", "video.mp4"]⟩ =
      ("ERROR: Could not parse episode number " ++ squote ++ "A" ++ squote ++
        " for " ++ pathDisplay ["d", "video.mp4"], [["d", "video.mp4"]]) ∧
    previewName 2 ⟨"Special", "A", "tt0898266"⟩ ⟨["d", "video.mp4"]⟩ =
      "S" ++ pad2 2 ++ "E" ++ "A" ++ " - " ++ sanitizeTitle "Special" ++ "." ++ "mp4" :=
  ⟨(C1_amended FsModel fsRename 2 ⟨"Special", "A", "tt0898266"⟩ ⟨["d", "video.mp4"]⟩ []
      [["d", "video.mp4"]] "mp4" rfl rfl).1,
   (C1_amended FsModel fsRename 2 ⟨"Special", "A", "tt0898266"⟩ ⟨["d", "video.mp4"]⟩ []
      [["d", "video.mp4"]] "mp4" rfl rfl).2.2⟩

/-- Claim C2: the rename executor produces exactly one outcome per plan entry;
a per-entry failure never aborts the remaining entries (each head entry
contributes exactly its own report and execution continues on the rest); in
the concrete batch with an extensionless file between two valid entries, the
extensionless entry reports a failure while both valid renames occur and are
reported as successes. -/
theorem C2_per_entry_outcomes :
    (∀ (σ : Type) (rn : σ → List String → List String → Except String σ)
        (season : Nat) (plan : List (Episode × LocalFile)) (fs : σ),
      ((runConfirm season rn plan fs).1).length = plan.length) ∧
    (∀ (σ : Type) (rn : σ → List String → List String → Except String σ)
        (season : Nat) (e : Episode) (f : LocalFile)
        (rest : List (Episode × LocalFile)) (fs : σ),
      runConfirm season rn ((e, f) :: rest) fs =
        ((confirmEntry season rn fs e f).1 ::
          (runConfirm season rn rest (confirmEntry season rn fs e f).2).1,
         (runConfirm season rn rest (confirmEntry season rn fs e f).2).2)) ∧
    runConfirm 1 fsRename
        [(⟨"Pilot", "1", "tt0001"⟩, ⟨["show", "a.mkv"]⟩),
         (⟨"NoExtension", "2", "tt0002"⟩, ⟨["show", "noext"]⟩),
         (⟨"Third", "3", "tt0003"⟩, ⟨["show", "b.mkv"]⟩)]
        [["show", "a.mkv"], ["show", "noext"], ["show", "b.mkv"]] =
      (["Successfully renamed " ++ squote ++ "show/a.mkv" ++ squote ++ " to " ++
          squote ++ "S01E01 - Pilot.mkv" ++ squote,
        "ERROR: Could not get file extension for show/noext",
        "Successfully renamed " ++ squote ++ "show/b.mkv" ++ squote ++ " to " ++
          squote ++ "S01E03 - Third.mkv" ++ squote],
       [["show", "S01E03 - Third.mkv"], ["show", "S01E01 - Pilot.mkv"],
        ["show", "noext"]]) := by
  refine ⟨?_, ?_, ?_⟩
  · intro σ rn season plan fs
    exact runConfirm_length season rn plan fs
  · intro σ rn season e f rest fs
    exact runConfirm_cons season rn e f rest fs
  · rfl

/-- Claim C3: for an episode whose label parses as an unsigned integer and a
file with an extension, the planned filename is `S` + zero-padded season +
`E` + zero-padded episode number + ` - ` + the title stripped of every
character that is neither alphanumeric nor whitespace + `.` + the original
extension; on the spec's example it is `S01E03 - The Beginning Part One.mkv`. -/
theorem C3_planned_name :
    (∀ (season : Nat) (e : Episode) (f : LocalFile) (n : Nat) (ext : String),
      parseU32 e.episode = some n →
      rustExtension f.path = some ext →
      plannedName season e f =
        some ("S" ++ pad2 season ++ "E" ++ pad2 n ++ " - " ++
          String.mk (e.title.toList.filter (fun c => c.isAlphanum || c.isWhitespace)) ++
          "." ++ ext)) ∧
    plannedName 1 ⟨"The Beginning: Part One!", "3", "tt0903747"⟩
        ⟨["season1", "ep3.mkv"]⟩ =
      some "S01E03 - The Beginning Part One.mkv" := by
  constructor
  · intro season e f n ext hparse hext
    simp only [plannedName, hext, hparse]
    rfl
  · rfl

/-- Witness for C3: the format theorem applied at a concrete episode and file. -/
theorem C3_planned_name_witness :
    plannedName 1 ⟨"Pilot", "1", "tt0001"⟩ ⟨["a.mkv"]⟩ =
      some ("S" ++ pad2 1 ++ "E" ++ pad2 1 ++ " - " ++
        String.mk ("Pilot".toList.filter (fun c => c.isAlphanum || c.isWhitespace)) ++
        "." ++ "mkv") :=
  C3_planned_name.1 1 ⟨"Pilot", "1", "tt0001"⟩ ⟨["a.mkv"]⟩ 1 "mkv" rfl rfl

/-- Claim C4: identifier resolution returns exactly the first slash-delimited
token of the link starting with `tt` (every earlier token lacks the prefix);
a link with no such token resolves to `none`, and in that case the worker
sends the no-identifier error and never issues the network request. -/
theorem C4_identifier_resolution :
    ∀ link : String,
      (∀ t, resolveImdbId link = some t →
        strStartsWith t "tt" = true ∧
        ∃ i, (rustSplit '/' link).get? i = some t ∧
          ∀ j, j < i → ∀ u, (rustSplit '/' link).get? j = some u →
            strStartsWith u "tt" = false) ∧
      (resolveImdbId link = none ↔
        ∀ u ∈ rustSplit '/' link, strStartsWith u "tt" = false) ∧
      (∀ (deliver : AppMessage → Bool) (files : List LocalFile)
          (net : Except String HttpResponse),
        resolveImdbId link = none →
        workerRun deliver link files net =
          ([AppMessage.fetchError "Could not find IMDb ID in link."], false)) := by
  intro link
  refine ⟨?_, ?_, ?_⟩
  · intro t ht
    exact find?_first (fun s => strStartsWith s "tt") (rustSplit '/' link) t ht
  · unfold resolveImdbId
    rw [List.find?_eq_none]
    constructor
    · intro h u hu
      cases hb : strStartsWith u "tt"
      · rfl
      · exact absurd hb (h u hu)
    · intro h u hu
      rw [h u hu]
      exact Bool.false_ne_true
  · intro deliver files net h
    simp only [workerRun, h]

/-- Witness for C4: a link with no `tt` token makes the worker fail without a
network request, and on a real IMDb URL the first `tt` token is extracted. -/
theorem C4_identifier_resolution_witness :
    workerRun (fun _ => true) "https://example.org/watchlist" []
        (Except.error "offline") =
      ([AppMessage.fetchError "Could not find IMDb ID in link."], false) ∧
    strStartsWith "tt0944947" "tt" = true :=
  ⟨(C4_identifier_resolution "https://example.org/watchlist").2.2 (fun _ => true) []
      (Except.error "offline") rfl,
   ((C4_identifier_resolution "https://www.imdb.com/title/tt0944947/").1 "tt0944947"
      rfl).1⟩

/-- Claim C5, counterexample: a 2xx body that is a JSON object can still fail
to decode — an `Episodes` array element missing its `Title` field aborts the
parse, so decode failures are produced for object bodies. -/
theorem C5_counterexample :
    decodeSeasonResponse (Json.obj [("Episodes", Json.arr [Json.obj []])]) =
      Except.error "missing field Title" := rfl

/-- Claim C5, amended: for JSON-object bodies, a missing `Episodes` key decodes
to the empty sequence and unknown fields (at the top level and inside episode
objects) never affect the result; but a present `Episodes` value of the wrong
shape — e.g. an element missing its `Title` string — does fail the decode. -/
theorem C5_amended :
    (∀ fields, hmLookup "Episodes" fields = none →
      decodeSeasonResponse (Json.obj fields) = Except.ok []) ∧
    (∀ fields fields2, hmLookup "Episodes" fields = hmLookup "Episodes" fields2 →
      decodeSeasonResponse (Json.obj fields) = decodeSeasonResponse (Json.obj fields2)) ∧
    (∀ fields t ep id, hmLookup "Title" fields = some (Json.str t) →
      hmLookup "Episode" fields = some (Json.str ep) →
      hmLookup "imdbID" fields = some (Json.str id) →
      decodeEpisode (Json.obj fields) = Except.ok ⟨t, ep, id⟩) ∧
    (∀ fields, hmLookup "Title" fields = none →
      decodeEpisode (Json.obj fields) = Except.error "missing field Title") := by
  refine ⟨?_, ?_, ?_, ?_⟩
  · intro fields h
    simp only [decodeSeasonResponse, h]
  · intro fields fields2 h
    simp only [decodeSeasonResponse, h]
  · intro fields t ep id h1 h2 h3
    simp only [decodeEpisode, h1, h2, h3]
  · intro fields h
    simp only [decodeEpisode, h]

/-- Witness for C5: a body with only unknown fields decodes to the empty
episode list, and an episode object with an extra unknown field decodes
tolerantly. -/
theorem C5_amended_witness :
    decodeSeasonResponse (Json.obj [("Response", Json.str "True")]) = Except.ok [] ∧
    decodeEpisode (Json.obj [("Title", Json.str "Pilot"),
        ("Released", Json.str "2008-01-20"), ("Episode", Json.str "1"),
        ("imdbID", Json.str "tt1054724")]) =
      Except.ok ⟨"Pilot", "1", "tt1054724"⟩ :=
  ⟨C5_amended.1 [("Response", Json.str "True")] rfl,
   C5_amended.2.2.1 [("Title", Json.str "Pilot"), ("Released", Json.str "2008-01-20"),
      ("Episode", Json.str "1"), ("imdbID", Json.str "tt1054724")]
      "Pilot" "1" "tt1054724" rfl rfl rfl⟩

/-- Claim C6: the directory scan yields exactly the regular files of the tree
(each exactly once, in traversal order, N of them), with directories and
erroring entries silently skipped; the scan is a total function, so traversal
errors never propagate to the caller. -/
theorem C6_scan_files :
    ∀ root : DirEntry,
      scanFiles root = regularFilesEntry [] root ∧
      (scanFiles root).length = countFilesEntry root ∧
      ((regularFilesEntry [] root).Nodup → (scanFiles root).Nodup) := by
  intro root
  have h : scanFiles root = regularFilesEntry [] root := pipeline_walkEntry [] root
  refine ⟨h, ?_, ?_⟩
  · rw [h, regularFiles_length_entry]
  · intro hnd
    rw [h]
    exact hnd

/-- Witness for C6: the scan of a concrete tree with two files, a subdirectory
and an erroring entry yields exactly the two files, without duplicates. -/
theorem C6_scan_files_witness :
    (scanFiles ex6Tree).Nodup ∧ scanFiles ex6Tree = regularFilesEntry [] ex6Tree :=
  ⟨(C6_scan_files ex6Tree).2.2 (by decide), (C6_scan_files ex6Tree).1⟩

/-- Claim C7 (invariant I2): in the plan produced by `build_rename_plan`, no
file value appears under two different episode keys — each file is assigned to
at most one episode, for every episodes/files/inputs state. -/
theorem C7_plan_value_unique :
    ∀ (episodes : List Episode) (files : List LocalFile)
      (inputs : List (List String × String)) (e1 e2 : Episode) (f : LocalFile),
      hmLookup e1 (buildRenamePlan episodes files inputs) = some f →
      hmLookup e2 (buildRenamePlan episodes files inputs) = some f →
      e1 = e2 := by
  intro episodes files inputs e1 e2 f h1 h2
  have hinv : ∀ e g, (e, g) ∈ buildRenamePlan episodes files inputs →
      inputEpisode episodes inputs g = some e := by
    have base : ∀ (e : Episode) (g : LocalFile),
        (e, g) ∈ ([] : List (Episode × LocalFile)) →
        inputEpisode episodes inputs g = some e := by
      intro e g hg
      cases hg
    exact foldl_preserve
      (fun plan => ∀ e g, (e, g) ∈ plan → inputEpisode episodes inputs g = some e)
      (buildStep episodes inputs)
      (fun plan file hp => buildStep_inv file hp)
      files [] base
  have i1 := hinv e1 f (hmLookup_mem h1)
  have i2 := hinv e2 f (hmLookup_mem h2)
  exact Option.some.inj (i1.symm.trans i2)

/-- Witness for C7: the uniqueness theorem applied to a concretely built plan
(one episode, one file, a matching input). -/
theorem C7_plan_value_unique_witness :
    hmLookup (Episode.mk "Pilot" "1" "tt0001")
        (buildRenamePlan [⟨"Pilot", "1", "tt0001"⟩] [⟨["a.mkv"]⟩]
          [(["a.mkv"], "1")]) =
      some ⟨["a.mkv"]⟩ ∧
    Episode.mk "Pilot" "1" "tt0001" = Episode.mk "Pilot" "1" "tt0001" :=
  ⟨rfl,
   C7_plan_value_unique [⟨"Pilot", "1", "tt0001"⟩] [⟨["a.mkv"]⟩] [(["a.mkv"], "1")]
      ⟨"Pilot", "1", "tt0001"⟩ ⟨"Pilot", "1", "tt0001"⟩ ⟨["a.mkv"]⟩ rfl rfl⟩

/-- Claim C8: per completed fetch attempt the worker sends exactly one
terminal message on its channel (never zero, never two), and the outcome of
the attempt is independent of whether the send is delivered — the discarded
send result has no observable effect. -/
theorem C8_worker_single_message :
    ∀ (deliver : AppMessage → Bool) (link : String) (files : List LocalFile)
      (net : Except String HttpResponse),
      ((workerRun deliver link files net).1).length = 1 ∧
      ∀ d2 : AppMessage → Bool,
        workerRun deliver link files net = workerRun d2 link files net := by
  intro deliver link files net
  cases hres : resolveImdbId link with
  | none =>
    exact ⟨by simp [workerRun, hres], fun d2 => by simp [workerRun, hres]⟩
  | some id =>
    cases net with
    | error e =>
      exact ⟨by simp [workerRun, hres], fun d2 => by simp [workerRun, hres]⟩
    | ok response =>
      cases hok : response.ok with
      | false =>
        exact ⟨by simp [workerRun, hres, hok], fun d2 => by simp [workerRun, hres, hok]⟩
      | true =>
        cases hdec : decodeBody response.body with
        | ok eps =>
          exact ⟨by simp [workerRun, hres, hok, hdec],
            fun d2 => by simp [workerRun, hres, hok, hdec]⟩
        | error e =>
          exact ⟨by simp [workerRun, hres, hok, hdec],
            fun d2 => by simp [workerRun, hres, hok, hdec]⟩

/-- Claim C9: receiving a successful fetch result seeds the state wholesale —
episodes and files become exactly the fetched sequences, the plan and the
per-file input buffers are emptied, the in-flight flag is cleared — while the
user-entered link, directory and season number are unchanged. -/
theorem C9_seed_state :
    ∀ (s : AppState) (episodes : List Episode) (files : List LocalFile),
      (handleMessage s (AppMessage.dataFetched episodes files)).episodes = episodes ∧
      (handleMessage s (AppMessage.dataFetched episodes files)).files = files ∧
      (handleMessage s (AppMessage.dataFetched episodes files)).rename_plan = [] ∧
      (handleMessage s (AppMessage.dataFetched episodes files)).file_episode_inputs = [] ∧
      (handleMessage s (AppMessage.dataFetched episodes files)).is_fetching = false ∧
      (handleMessage s (AppMessage.dataFetched episodes files)).imdb_link = s.imdb_link ∧
      (handleMessage s (AppMessage.dataFetched episodes files)).series_directory =
        s.series_directory ∧
      (handleMessage s (AppMessage.dataFetched episodes files)).season_number =
        s.season_number := by
  intro s episodes files
  exact ⟨rfl, rfl, rfl, rfl, rfl, rfl, rfl, rfl⟩

/-- Claim C10: after the confirm branch runs the rename batch, the plan, the
episodes, the files and the per-file input buffers are cleared unconditionally
(and both windows closed), whatever the filesystem oracle — hence even when
every individual rename failed. -/
theorem C10_confirm_clears_state :
    ∀ (σ : Type) (rn : σ → List String → List String → Except String σ)
      (s : AppState) (fs0 : σ),
      ((applyConfirm rn s fs0).1).rename_plan = [] ∧
      ((applyConfirm rn s fs0).1).episodes = [] ∧
      ((applyConfirm rn s fs0).1).files = [] ∧
      ((applyConfirm rn s fs0).1).file_episode_inputs = [] ∧
      ((applyConfirm rn s fs0).1).show_confirmation_dialog = false ∧
      ((applyConfirm rn s fs0).1).show_process_window = false := by
  intro σ rn s fs0
  exact ⟨rfl, rfl, rfl, rfl, rfl, rfl⟩
